import Mathlib

/-!
Shallow embedding of `src/MBohr/core.py` (class `BohrAtom`) and proofs of the
specification claims about it.

Modelling conventions:
* Python `float` arithmetic is modelled by exact rational arithmetic (`ℚ`);
  the two quantities that involve `π` (`_hbar` and the Bohr radius `a0`) are
  modelled over `ℝ`.
* Python's `/`, which raises `ZeroDivisionError` on a zero denominator, is
  modelled by `pydiv` / `pydivR`, returning `Except`.
* A `raise ValueError(...)` / `ZeroDivisionError` is modelled by the
  `PyError` inductive; the three distinct `ValueError` messages of the source
  are distinguished by constructor.
-/

/-- Errors the Python code can raise: the three `ValueError`s (for `Z < 1`,
for `n < 1`, and for an unrecognized unit string) and `ZeroDivisionError`. -/
inductive PyError where
  | valueErrorZ
  | valueErrorN
  | valueErrorUnit
  | zeroDivisionError
  deriving DecidableEq, Repr

/-- Python division on floats, which raises `ZeroDivisionError` when the
denominator is zero (modelled over `ℚ`). -/
def pydiv (a b : ℚ) : Except PyError ℚ :=
  if b = 0 then .error .zeroDivisionError else .ok (a / b)

/-- Python division on floats over `ℝ` (used where `π` is involved). -/
noncomputable def pydivR (a b : ℝ) : Except PyError ℝ :=
  if b = 0 then .error .zeroDivisionError else .ok (a / b)

/-- Python `str.lower()` (the unit strings involved are ASCII, on which
`Char.toLower` agrees with Python's lowercasing). -/
def pyLower (s : String) : String := String.mk (s.data.map Char.toLower)

/-- Module constant `_h = 6.62607015e-34` (J·s). -/
def hPlanck : ℚ := 6.62607015e-34

/-- Module constant `_e = 1.602176634e-19` (C). -/
def eCharge : ℚ := 1.602176634e-19

/-- Module constant `_m_e = 9.1093837015e-31` (kg). -/
def mElectron : ℚ := 9.1093837015e-31

/-- Module constant `_epsilon0 = 8.8541878128e-12` (F/m). -/
def epsilonZero : ℚ := 8.8541878128e-12

/-- Module constant `_c = 299792458.0` (m/s). -/
def cLight : ℚ := 299792458

/-- State of a `BohrAtom` instance: the atomic number `Z` and the per-instance
copies of the physical constants (`self._h`, `self._e`, `self._m_e`,
`self._epsilon0`, `self._c`).  `self._hbar` and `self.a0` are determined by
these fields (`_hbar = _h / (2π)`, and `a0` is computed in `__init__` from the
instance constants), so they are modelled as derived functions below. -/
structure BohrAtom where
  Z : ℤ
  h : ℚ
  e : ℚ
  m_e : ℚ
  epsilon0 : ℚ
  c : ℚ
  deriving DecidableEq, Repr

/-- Constructor `BohrAtom.__init__`: raises `ValueError` if `Z < 1`, otherwise
stores `Z` (as an exact integer) together with the module constants. -/
def mkBohrAtom (Z : ℤ) : Except PyError BohrAtom :=
  if Z < 1 then .error .valueErrorZ
  else .ok ⟨Z, hPlanck, eCharge, mElectron, epsilonZero, cLight⟩

/-- Instance constant `self._hbar = self._h / (2 * math.pi)`. -/
noncomputable def BohrAtom.hbar (A : BohrAtom) : ℝ :=
  (A.h : ℝ) / (2 * Real.pi)

/-- Instance field `self.a0 = 4 * math.pi * self._epsilon0 * self._hbar**2 /
(self._m_e * self._e**2)`, computed at construction. -/
noncomputable def BohrAtom.a0 (A : BohrAtom) : ℝ :=
  4 * Real.pi * (A.epsilon0 : ℝ) * A.hbar ^ 2 / ((A.m_e : ℝ) * (A.e : ℝ) ^ 2)

/-- Method `energy_joule(n)`: raises `ValueError` if `n < 1`, otherwise
returns `-(m_e * e**4 * Z**2) / (8 * epsilon0**2 * h**2 * n**2)`. -/
def BohrAtom.energy_joule (A : BohrAtom) (n : ℤ) : Except PyError ℚ :=
  if n < 1 then .error .valueErrorN
  else pydiv (-(A.m_e * A.e ^ 4 * (A.Z : ℚ) ^ 2))
    (8 * A.epsilon0 ^ 2 * A.h ^ 2 * (n : ℚ) ^ 2)

/-- Method `energy(n, unit)`: computes `energy_joule(n)` first, then returns
it unchanged when `unit.lower() == "j"`, divides by `self._e` when
`unit.lower() == "ev"`, and raises `ValueError` otherwise. -/
def BohrAtom.energy (A : BohrAtom) (n : ℤ) (unit : String) :
    Except PyError ℚ := do
  let Ej ← A.energy_joule n
  if pyLower unit = "j" then
    return Ej
  else if pyLower unit = "ev" then
    pydiv Ej A.e
  else
    .error .valueErrorUnit

/-- Method `radius(n)`: raises `ValueError` if `n < 1`, otherwise returns
`self.a0 * n**2 / self.Z`. -/
noncomputable def BohrAtom.radius (A : BohrAtom) (n : ℤ) : Except PyError ℝ :=
  if n < 1 then .error .valueErrorN
  else pydivR (A.a0 * (n : ℝ) ^ 2) (A.Z : ℝ)

/-- Method `transition_energy_joule(n_i, n_f)`: evaluates
`energy_joule(n_i)` then `energy_joule(n_f)` and returns `E_f - E_i`. -/
def BohrAtom.transition_energy_joule (A : BohrAtom) (ni nf : ℤ) :
    Except PyError ℚ := do
  let Ei ← A.energy_joule ni
  let Ef ← A.energy_joule nf
  return Ef - Ei

/-- Method `transition_energy(n_i, n_f, unit)`: absolute value of
`transition_energy_joule`, converted to the requested unit with the same
unit handling as `energy`. -/
def BohrAtom.transition_energy (A : BohrAtom) (ni nf : ℤ) (unit : String) :
    Except PyError ℚ := do
  let dEj ← A.transition_energy_joule ni nf
  if pyLower unit = "j" then
    return |dEj|
  else if pyLower unit = "ev" then
    pydiv |dEj| A.e
  else
    .error .valueErrorUnit

/-- Method `frequency(n_i, n_f)`: `abs(transition_energy_joule) / self._h`. -/
def BohrAtom.frequency (A : BohrAtom) (ni nf : ℤ) : Except PyError ℚ := do
  let dE ← A.transition_energy_joule ni nf
  pydiv |dE| A.h

/-- Method `wavelength(n_i, n_f)`: `self._c / self.frequency(n_i, n_f)`
(Python raises `ZeroDivisionError` when the frequency is zero). -/
def BohrAtom.wavelength (A : BohrAtom) (ni nf : ℤ) : Except PyError ℚ := do
  let nu ← A.frequency ni nf
  pydiv A.c nu

/-- Atom produced by `BohrAtom(Z)` for a valid `Z` (used to state lemmas and
concrete witnesses). -/
def atomOf (Z : ℤ) : BohrAtom :=
  ⟨Z, hPlanck, eCharge, mElectron, epsilonZero, cLight⟩

/-- Hydrogen instance `BohrAtom(1)`. -/
def hydrogen : BohrAtom := atomOf 1

/-- Energy of level `n` for nuclear charge `Z` under the module constants:
the value `-(m_e * e^4 * Z^2) / (8 * epsilon0^2 * h^2 * n^2)` computed by
`energy_joule` on an atom built by `mkBohrAtom`. -/
def Elevel (Z n : ℤ) : ℚ :=
  -(mElectron * eCharge ^ 4 * (Z : ℚ) ^ 2) /
    (8 * epsilonZero ^ 2 * hPlanck ^ 2 * (n : ℚ) ^ 2)

lemma epsilonZero_pos : 0 < epsilonZero := by norm_num [epsilonZero]

lemma hPlanck_pos : 0 < hPlanck := by norm_num [hPlanck]

lemma eCharge_pos : 0 < eCharge := by norm_num [eCharge]

lemma mElectron_pos : 0 < mElectron := by norm_num [mElectron]

lemma cLight_pos : 0 < cLight := by norm_num [cLight]

lemma energy_denom_pos (n : ℤ) (hn : n ≠ 0) :
    0 < 8 * epsilonZero ^ 2 * hPlanck ^ 2 * (n : ℚ) ^ 2 := by
  have h3 : (n : ℚ) ≠ 0 := Int.cast_ne_zero.mpr hn
  have h1 := epsilonZero_pos
  have h2 := hPlanck_pos
  positivity

lemma energy_joule_ok (Z n : ℤ) (hn : 1 ≤ n) :
    (atomOf Z).energy_joule n = .ok (Elevel Z n) := by
  have hd := (energy_denom_pos n (by omega)).ne'
  simp [BohrAtom.energy_joule, atomOf, pydiv, Elevel, hd, not_lt.mpr hn]

lemma energy_joule_err (Z n : ℤ) (hn : n < 1) :
    (atomOf Z).energy_joule n = .error .valueErrorN := by
  simp [BohrAtom.energy_joule, hn]

lemma tej_ok (Z ni nf : ℤ) (hi : 1 ≤ ni) (hf : 1 ≤ nf) :
    (atomOf Z).transition_energy_joule ni nf =
      .ok (Elevel Z nf - Elevel Z ni) := by
  simp [BohrAtom.transition_energy_joule, energy_joule_ok, hi, hf,
    Except.bind, Bind.bind, pure, Except.pure]

lemma Knum_pos (Z : ℤ) (hZ : 1 ≤ Z) :
    0 < mElectron * eCharge ^ 4 * (Z : ℚ) ^ 2 := by
  have hz : (0 : ℚ) < (Z : ℚ) := by exact_mod_cast (by omega : (0 : ℤ) < Z)
  have h1 := mElectron_pos
  have h2 := eCharge_pos
  positivity

lemma Elevel_neg (Z n : ℤ) (hZ : 1 ≤ Z) (hn : 1 ≤ n) : Elevel Z n < 0 := by
  unfold Elevel
  exact div_neg_of_neg_of_pos (neg_lt_zero.mpr (Knum_pos Z hZ))
    (energy_denom_pos n (by omega))

lemma Elevel_strict (Z n m : ℤ) (hZ : 1 ≤ Z) (hn : 1 ≤ n) (hnm : n < m) :
    Elevel Z n < Elevel Z m := by
  unfold Elevel
  rw [neg_div, neg_div, neg_lt_neg_iff]
  apply div_lt_div_of_pos_left (Knum_pos Z hZ) (energy_denom_pos n (by omega))
  have hsq : (n : ℚ) ^ 2 < (m : ℚ) ^ 2 := by
    apply pow_lt_pow_left₀ (by exact_mod_cast hnm)
      (by exact_mod_cast (by omega : (0 : ℤ) ≤ n)) (by norm_num)
  have hc : (0 : ℚ) < 8 * epsilonZero ^ 2 * hPlanck ^ 2 := by
    have h1 := epsilonZero_pos
    have h2 := hPlanck_pos
    positivity
  calc 8 * epsilonZero ^ 2 * hPlanck ^ 2 * (n : ℚ) ^ 2
      < 8 * epsilonZero ^ 2 * hPlanck ^ 2 * (m : ℚ) ^ 2 :=
        mul_lt_mul_of_pos_left hsq hc

lemma Elevel_lt_iff (Z ni nf : ℤ) (hZ : 1 ≤ Z) (hi : 1 ≤ ni) (hf : 1 ≤ nf) :
    Elevel Z ni < Elevel Z nf ↔ ni < nf := by
  constructor
  · intro h
    by_contra h'
    push_neg at h'
    rcases eq_or_lt_of_le h' with he | hl
    · rw [he] at h
      exact lt_irrefl _ h
    · exact absurd h (not_lt.mpr (le_of_lt (Elevel_strict Z nf ni hZ hf hl)))
  · exact Elevel_strict Z ni nf hZ hi

lemma Elevel_inj (Z ni nf : ℤ) (hZ : 1 ≤ Z) (hi : 1 ≤ ni) (hf : 1 ≤ nf) :
    Elevel Z ni = Elevel Z nf ↔ ni = nf := by
  constructor
  · intro h
    by_contra hne
    rcases lt_or_gt_of_ne hne with hl | hl
    · exact absurd h (ne_of_lt (Elevel_strict Z ni nf hZ hi hl))
    · exact absurd h.symm (ne_of_lt (Elevel_strict Z nf ni hZ hf hl))
  · intro h
    rw [h]

lemma frequency_ok (Z ni nf : ℤ) (hi : 1 ≤ ni) (hf : 1 ≤ nf) :
    (atomOf Z).frequency ni nf =
      .ok (|Elevel Z nf - Elevel Z ni| / hPlanck) := by
  unfold BohrAtom.frequency
  rw [tej_ok Z ni nf hi hf]
  simp [pydiv, hPlanck_pos.ne', Except.bind, Bind.bind, pure, Except.pure,
    atomOf]

lemma freq_val_zero_iff (Z ni nf : ℤ) (hZ : 1 ≤ Z) (hi : 1 ≤ ni)
    (hf : 1 ≤ nf) :
    |Elevel Z nf - Elevel Z ni| / hPlanck = 0 ↔ ni = nf := by
  constructor
  · intro h
    rcases div_eq_zero_iff.mp h with h0 | h0
    · have h1 := sub_eq_zero.mp (abs_eq_zero.mp h0)
      exact ((Elevel_inj Z nf ni hZ hf hi).mp h1).symm
    · exact absurd h0 hPlanck_pos.ne'
  · intro h
    subst h
    simp

lemma wavelength_ok (Z ni nf : ℤ) (hZ : 1 ≤ Z) (hi : 1 ≤ ni) (hf : 1 ≤ nf)
    (hne : ni ≠ nf) :
    (atomOf Z).wavelength ni nf =
      .ok (cLight / (|Elevel Z nf - Elevel Z ni| / hPlanck)) := by
  unfold BohrAtom.wavelength
  rw [frequency_ok Z ni nf hi hf]
  have hv : |Elevel Z nf - Elevel Z ni| / hPlanck ≠ 0 := by
    intro h
    exact hne ((freq_val_zero_iff Z ni nf hZ hi hf).mp h)
  simp [pydiv, hv, atomOf, Except.bind, Bind.bind, pure, Except.pure]

lemma wavelength_err (Z ni nf : ℤ) (hZ : 1 ≤ Z) (hi : 1 ≤ ni) (hf : 1 ≤ nf)
    (he : ni = nf) :
    (atomOf Z).wavelength ni nf = .error .zeroDivisionError := by
  subst he
  unfold BohrAtom.wavelength
  rw [frequency_ok Z ni ni hi hi]
  simp [pydiv, Except.bind, Bind.bind, pure, Except.pure]

lemma a0_val (A : BohrAtom) :
    A.a0 = (A.epsilon0 : ℝ) * (A.h : ℝ) ^ 2 /
      (Real.pi * ((A.m_e : ℝ) * (A.e : ℝ) ^ 2)) := by
  unfold BohrAtom.a0 BohrAtom.hbar
  rcases eq_or_ne ((A.m_e : ℝ) * (A.e : ℝ) ^ 2) 0 with h | h
  · rw [h, mul_zero, div_zero, div_zero]
  · have hπ : Real.pi ≠ 0 := Real.pi_ne_zero
    field_simp
    ring

lemma hydrogen_a0_bound :
    |hydrogen.a0 - 5.29177e-11| ≤ 0.001 * 5.29177e-11 := by
  have hval : hydrogen.a0 =
      ((epsilonZero : ℝ) * (hPlanck : ℝ) ^ 2 /
        ((mElectron : ℝ) * (eCharge : ℝ) ^ 2)) / Real.pi := by
    rw [a0_val]
    show (epsilonZero : ℝ) * (hPlanck : ℝ) ^ 2 /
        (Real.pi * ((mElectron : ℝ) * (eCharge : ℝ) ^ 2)) = _
    rw [div_div]
    ring_nf
  set r : ℝ := (epsilonZero : ℝ) * (hPlanck : ℝ) ^ 2 /
    ((mElectron : ℝ) * (eCharge : ℝ) ^ 2) with hrdef
  have hrpos : (0 : ℝ) < r := by
    rw [hrdef]
    norm_num [epsilonZero, hPlanck, mElectron, eCharge]
  have hub : r / Real.pi < r / 3.141592 :=
    div_lt_div_of_pos_left hrpos (by norm_num) Real.pi_gt_d6
  have hlb : r / 3.141593 < r / Real.pi :=
    div_lt_div_of_pos_left hrpos Real.pi_pos Real.pi_lt_d6
  have hn1 : r / 3.141592 ≤ 5.29177e-11 + 0.001 * 5.29177e-11 := by
    rw [hrdef]
    norm_num [epsilonZero, hPlanck, mElectron, eCharge]
  have hn2 : (5.29177e-11 : ℝ) - 0.001 * 5.29177e-11 ≤ r / 3.141593 := by
    rw [hrdef]
    norm_num [epsilonZero, hPlanck, mElectron, eCharge]
  rw [hval, abs_le]
  constructor <;> nlinarith [hub, hlb, hn1, hn2]

lemma radius_ok (Z n : ℤ) (hZ : 1 ≤ Z) (hn : 1 ≤ n) :
    (atomOf Z).radius n = .ok ((atomOf Z).a0 * (n : ℝ) ^ 2 / (Z : ℝ)) := by
  have hz : ((Z : ℝ)) ≠ 0 := Int.cast_ne_zero.mpr (by omega)
  unfold BohrAtom.radius
  rw [if_neg (by omega : ¬ n < 1)]
  simp [pydivR, atomOf, hz]

lemma tej_err (Z ni nf : ℤ) (h : ni < 1 ∨ nf < 1) :
    (atomOf Z).transition_energy_joule ni nf = .error .valueErrorN := by
  unfold BohrAtom.transition_energy_joule
  by_cases hi : ni < 1
  · rw [energy_joule_err Z ni hi]
    simp [Except.bind, Bind.bind]
  · have hf : nf < 1 := by omega
    rw [energy_joule_ok Z ni (by omega), energy_joule_err Z nf hf]
    simp [Except.bind, Bind.bind]

lemma freq_err (Z ni nf : ℤ) (h : ni < 1 ∨ nf < 1) :
    (atomOf Z).frequency ni nf = .error .valueErrorN := by
  unfold BohrAtom.frequency
  rw [tej_err Z ni nf h]
  simp [Except.bind, Bind.bind]

lemma transition_energy_ok_j (Z ni nf : ℤ) (unit : String) (hi : 1 ≤ ni)
    (hf : 1 ≤ nf) (hj : pyLower unit = "j") :
    (atomOf Z).transition_energy ni nf unit =
      .ok |Elevel Z nf - Elevel Z ni| := by
  unfold BohrAtom.transition_energy
  rw [tej_ok Z ni nf hi hf]
  simp [hj, Except.bind, Bind.bind, pure, Except.pure]

lemma transition_energy_ok_ev (Z ni nf : ℤ) (unit : String) (hi : 1 ≤ ni)
    (hf : 1 ≤ nf) (hev : pyLower unit = "ev") :
    (atomOf Z).transition_energy ni nf unit =
      .ok (|Elevel Z nf - Elevel Z ni| / eCharge) := by
  unfold BohrAtom.transition_energy
  rw [tej_ok Z ni nf hi hf]
  have hne : ("ev" : String) ≠ "j" := by decide
  simp [hev, hne, pydiv, eCharge_pos.ne', atomOf,
    Except.bind, Bind.bind, pure, Except.pure]

lemma energy_ok_j (Z n : ℤ) (unit : String) (hn : 1 ≤ n)
    (hj : pyLower unit = "j") :
    (atomOf Z).energy n unit = (atomOf Z).energy_joule n := by
  unfold BohrAtom.energy
  rw [energy_joule_ok Z n hn]
  simp [hj, Except.bind, Bind.bind, pure, Except.pure, energy_joule_ok Z n hn]

lemma energy_ok_ev (Z n : ℤ) (unit : String) (hn : 1 ≤ n)
    (hev : pyLower unit = "ev") :
    (atomOf Z).energy n unit = .ok (Elevel Z n / eCharge) := by
  unfold BohrAtom.energy
  rw [energy_joule_ok Z n hn]
  have hne : ("ev" : String) ≠ "j" := by decide
  simp [hev, hne, pydiv, eCharge_pos.ne', atomOf,
    Except.bind, Bind.bind, pure, Except.pure]

lemma energy_err_unit (Z n : ℤ) (unit : String) (hn : 1 ≤ n)
    (hj : pyLower unit ≠ "j") (hev : pyLower unit ≠ "ev") :
    (atomOf Z).energy n unit = .error .valueErrorUnit := by
  unfold BohrAtom.energy
  rw [energy_joule_ok Z n hn]
  simp [hj, hev, Except.bind, Bind.bind, pure, Except.pure]

/-- Claim C1: for every valid `n_i = n_f` (both ≥ 1), `wavelength(n_i, n_f)`
raises a division-by-zero condition (Python's `ZeroDivisionError`) and never
silently returns a numeric value; for every valid `n_i ≠ n_f` it returns
`c / frequency(n_i, n_f)`. -/
theorem claim_C1 (Z ni nf : ℤ) (hZ : 1 ≤ Z) (hi : 1 ≤ ni) (hf : 1 ≤ nf) :
    (ni = nf → (atomOf Z).wavelength ni nf = .error .zeroDivisionError) ∧
    (ni ≠ nf → ∃ v, (atomOf Z).frequency ni nf = .ok v ∧ v ≠ 0 ∧
      (atomOf Z).wavelength ni nf = .ok ((atomOf Z).c / v)) := by
  constructor
  · exact wavelength_err Z ni nf hZ hi hf
  · intro hne
    refine ⟨_, frequency_ok Z ni nf hi hf, ?_, ?_⟩
    · intro h0
      exact hne ((freq_val_zero_iff Z ni nf hZ hi hf).mp h0)
    · rw [wavelength_ok Z ni nf hZ hi hf hne]
      rfl

/-- Witness for C1 at `Z = 1`: `wavelength(2, 2)` raises division by zero and
`wavelength(2, 1)` returns `c / frequency(2, 1)`. -/
theorem claim_C1_witness :
    (atomOf 1).wavelength 2 2 = .error .zeroDivisionError ∧
    (∃ v, (atomOf 1).frequency 2 1 = .ok v ∧ v ≠ 0 ∧
      (atomOf 1).wavelength 2 1 = .ok ((atomOf 1).c / v)) :=
  ⟨(claim_C1 1 2 2 (by decide) (by decide) (by decide)).1 rfl,
   (claim_C1 1 2 1 (by decide) (by decide) (by decide)).2 (by decide)⟩

/-- Claim C2: `BohrAtom(Z)` raises `ValueError` for every `Z < 1` and succeeds
for every `Z ≥ 1`, storing `Z` as an exact integer; for `Z = 1` the derived
Bohr radius `a0` is within 0.1% of `5.29177e-11` meters. -/
theorem claim_C2 (Z : ℤ) :
    (Z < 1 → mkBohrAtom Z = .error .valueErrorZ) ∧
    (1 ≤ Z → mkBohrAtom Z = .ok (atomOf Z) ∧ (atomOf Z).Z = Z) ∧
    |(atomOf 1).a0 - 5.29177e-11| ≤ 0.001 * 5.29177e-11 := by
  refine ⟨fun h => by simp [mkBohrAtom, h], fun h => ⟨?_, rfl⟩,
    hydrogen_a0_bound⟩
  simp [mkBohrAtom, atomOf, not_lt.mpr h]

/-- Witness for C2: `BohrAtom(0)` and `BohrAtom(-5)` raise `ValueError`,
`BohrAtom(1)` succeeds with `Z = 1`, and its `a0` is within 0.1% of the
classical Bohr radius. -/
theorem claim_C2_witness :
    mkBohrAtom 0 = .error .valueErrorZ ∧
    mkBohrAtom (-5) = .error .valueErrorZ ∧
    (mkBohrAtom 1 = .ok (atomOf 1) ∧ (atomOf 1).Z = 1) ∧
    |(atomOf 1).a0 - 5.29177e-11| ≤ 0.001 * 5.29177e-11 :=
  ⟨(claim_C2 0).1 (by decide), (claim_C2 (-5)).1 (by decide),
   (claim_C2 1).2.1 (by decide), (claim_C2 1).2.2⟩

/-- Claim C3: for every integer `n ≥ 1`, `energy_joule(n)` returns
`-(m_e * e^4 * Z^2) / (8 * epsilon0^2 * h^2 * n^2)` (the value `Elevel Z n`),
which is strictly negative; for every integer `n < 1` it raises
`ValueError`. -/
theorem claim_C3 (Z n : ℤ) (hZ : 1 ≤ Z) :
    (1 ≤ n → (atomOf Z).energy_joule n = .ok (Elevel Z n) ∧ Elevel Z n < 0) ∧
    (n < 1 → (atomOf Z).energy_joule n = .error .valueErrorN) :=
  ⟨fun hn => ⟨energy_joule_ok Z n hn, Elevel_neg Z n hZ hn⟩,
    fun hn => energy_joule_err Z n hn⟩

/-- Witness for C3 at `Z = 1`: `energy_joule(1)` returns the (negative)
formula value and `energy_joule(0)` raises `ValueError`. -/
theorem claim_C3_witness :
    ((atomOf 1).energy_joule 1 = .ok (Elevel 1 1) ∧ Elevel 1 1 < 0) ∧
    (atomOf 1).energy_joule 0 = .error .valueErrorN :=
  ⟨(claim_C3 1 1 (by decide)).1 (by decide),
   (claim_C3 1 0 (by decide)).2 (by decide)⟩

/-- Claim C4: for every integer `n ≥ 1` and any casing of the unit string,
`energy(n, unit)` returns `energy_joule(n)` unchanged when the unit lowercases
to `"j"`, returns `energy_joule(n)` divided by the elementary charge when it
lowercases to `"ev"` (so `energy(n, "eV") = energy(n, "J") / e`), and raises
`ValueError` for every other unit string. -/
theorem claim_C4 (Z n : ℤ) (unit : String) (hZ : 1 ≤ Z) (hn : 1 ≤ n) :
    (pyLower unit = "j" →
      (atomOf Z).energy n unit = (atomOf Z).energy_joule n) ∧
    (pyLower unit = "ev" →
      (atomOf Z).energy n unit = .ok (Elevel Z n / eCharge)) ∧
    (pyLower unit ≠ "j" → pyLower unit ≠ "ev" →
      (atomOf Z).energy n unit = .error .valueErrorUnit) ∧
    (∃ x y, (atomOf Z).energy n "eV" = .ok x ∧
      (atomOf Z).energy n "J" = .ok y ∧ x = y / eCharge) := by
  refine ⟨energy_ok_j Z n unit hn, energy_ok_ev Z n unit hn,
    energy_err_unit Z n unit hn,
    ⟨Elevel Z n / eCharge, Elevel Z n, ?_, ?_, rfl⟩⟩
  · exact energy_ok_ev Z n "eV" hn (by decide)
  · rw [energy_ok_j Z n "J" hn (by decide)]
    exact energy_joule_ok Z n hn

/-- Witness for C4 at `Z = 1`, `n = 1`: unit `"J"` passes the joule value
through, unit `"Joules"` raises `ValueError`, and
`energy(1, "eV") = energy(1, "J") / e`. -/
theorem claim_C4_witness :
    ((atomOf 1).energy 1 "J" = (atomOf 1).energy_joule 1) ∧
    ((atomOf 1).energy 1 "Joules" = .error .valueErrorUnit) ∧
    (∃ x y, (atomOf 1).energy 1 "eV" = .ok x ∧
      (atomOf 1).energy 1 "J" = .ok y ∧ x = y / eCharge) :=
  ⟨(claim_C4 1 1 "J" (by decide) (by decide)).1 (by decide),
   (claim_C4 1 1 "Joules" (by decide) (by decide)).2.2.1 (by decide)
     (by decide),
   (claim_C4 1 1 "J" (by decide) (by decide)).2.2.2⟩

/-- Claim C5: for every integer `n ≥ 1`, `radius(n)` returns
`a0 * n^2 / Z` (hence `radius(1) = a0 / Z` for every `Z ≥ 1`), and raises
`ValueError` for every integer `n < 1`. -/
theorem claim_C5 (Z n : ℤ) (hZ : 1 ≤ Z) :
    (1 ≤ n →
      (atomOf Z).radius n = .ok ((atomOf Z).a0 * (n : ℝ) ^ 2 / (Z : ℝ))) ∧
    ((atomOf Z).radius 1 = .ok ((atomOf Z).a0 / (Z : ℝ))) ∧
    (n < 1 → (atomOf Z).radius n = .error .valueErrorN) := by
  refine ⟨fun hn => radius_ok Z n hZ hn, ?_, fun hn => ?_⟩
  · rw [radius_ok Z 1 hZ le_rfl]
    norm_num
  · unfold BohrAtom.radius
    rw [if_pos hn]

/-- Witness for C5 at `Z = 1`: `radius(2)` is `a0 * 2^2 / Z`, `radius(1)` is
`a0 / Z`, and `radius(0)` raises `ValueError`. -/
theorem claim_C5_witness :
    ((atomOf 1).radius 2 =
      .ok ((atomOf 1).a0 * ((2 : ℤ) : ℝ) ^ 2 / ((1 : ℤ) : ℝ))) ∧
    ((atomOf 1).radius 1 = .ok ((atomOf 1).a0 / ((1 : ℤ) : ℝ))) ∧
    (atomOf 1).radius 0 = .error .valueErrorN :=
  ⟨(claim_C5 1 2 (by decide)).1 (by decide), (claim_C5 1 2 (by decide)).2.1,
   (claim_C5 1 0 (by decide)).2.2 (by decide)⟩

/-- Claim C6: for all integers `n_i, n_f ≥ 1` with `n_i ≠ n_f` and every
valid unit, `transition_energy(n_i, n_f, unit)` is non-negative and
symmetric in `n_i`, `n_f`: it is the absolute value of
`transition_energy_joule`, converted to the requested unit. -/
theorem claim_C6 (Z ni nf : ℤ) (unit : String) (hZ : 1 ≤ Z) (hi : 1 ≤ ni)
    (hf : 1 ≤ nf) (hne : ni ≠ nf)
    (hu : pyLower unit = "j" ∨ pyLower unit = "ev") :
    ∃ dE r, (atomOf Z).transition_energy_joule ni nf = .ok dE ∧
      (atomOf Z).transition_energy ni nf unit = .ok r ∧ 0 ≤ r ∧
      (pyLower unit = "j" → r = |dE|) ∧
      (pyLower unit = "ev" → r = |dE| / eCharge) ∧
      (atomOf Z).transition_energy ni nf unit =
        (atomOf Z).transition_energy nf ni unit := by
  rcases hu with hj | hev
  · refine ⟨Elevel Z nf - Elevel Z ni, |Elevel Z nf - Elevel Z ni|,
      tej_ok Z ni nf hi hf, transition_energy_ok_j Z ni nf unit hi hf hj,
      abs_nonneg _, fun _ => rfl, fun hev' => ?_, ?_⟩
    · exact absurd (hj ▸ hev') (by decide)
    · rw [transition_energy_ok_j Z ni nf unit hi hf hj,
        transition_energy_ok_j Z nf ni unit hf hi hj, abs_sub_comm]
  · refine ⟨Elevel Z nf - Elevel Z ni, |Elevel Z nf - Elevel Z ni| / eCharge,
      tej_ok Z ni nf hi hf, transition_energy_ok_ev Z ni nf unit hi hf hev,
      div_nonneg (abs_nonneg _) eCharge_pos.le, fun hj' => ?_, fun _ => rfl,
      ?_⟩
    · exact absurd (hev ▸ hj') (by decide)
    · rw [transition_energy_ok_ev Z ni nf unit hi hf hev,
        transition_energy_ok_ev Z nf ni unit hf hi hev, abs_sub_comm]

/-- Witness for C6 at `Z = 1`, `n_i = 2`, `n_f = 1`, unit `"eV"`. -/
theorem claim_C6_witness :
    ∃ dE r, (atomOf 1).transition_energy_joule 2 1 = .ok dE ∧
      (atomOf 1).transition_energy 2 1 "eV" = .ok r ∧ 0 ≤ r ∧
      (pyLower "eV" = "j" → r = |dE|) ∧
      (pyLower "eV" = "ev" → r = |dE| / eCharge) ∧
      (atomOf 1).transition_energy 2 1 "eV" =
        (atomOf 1).transition_energy 1 2 "eV" :=
  claim_C6 1 2 1 "eV" (by decide) (by decide) (by decide) (by decide)
    (Or.inr (by decide))

/-- Claim C7: for all integers `n_i, n_f ≥ 1`, `transition_energy_joule`
returns `energy_joule(n_f) - energy_joule(n_i)`, positive exactly when the
final level is higher (`n_i < n_f`); the only validation performed is the
`n ≥ 1` check applied by `energy_joule` to each argument independently. -/
theorem claim_C7 (Z ni nf : ℤ) (hZ : 1 ≤ Z) :
    (1 ≤ ni → 1 ≤ nf → ∃ Ei Ef,
      (atomOf Z).energy_joule ni = .ok Ei ∧
      (atomOf Z).energy_joule nf = .ok Ef ∧
      (atomOf Z).transition_energy_joule ni nf = .ok (Ef - Ei) ∧
      (0 < Ef - Ei ↔ ni < nf)) ∧
    (ni < 1 → (atomOf Z).transition_energy_joule ni nf =
      .error .valueErrorN) ∧
    (nf < 1 → (atomOf Z).transition_energy_joule ni nf =
      .error .valueErrorN) := by
  refine ⟨fun hi hf => ⟨Elevel Z ni, Elevel Z nf, energy_joule_ok Z ni hi,
    energy_joule_ok Z nf hf, tej_ok Z ni nf hi hf, ?_⟩,
    fun hi => tej_err Z ni nf (Or.inl hi), fun hf => tej_err Z ni nf (Or.inr hf)⟩
  rw [sub_pos]
  exact Elevel_lt_iff Z ni nf hZ hi hf

/-- Witness for C7 at `Z = 1`: the `2 → 3` transition is `E(3) - E(2)` and
positive, and `transition_energy_joule(0, 3)` raises `ValueError`. -/
theorem claim_C7_witness :
    (∃ Ei Ef,
      (atomOf 1).energy_joule 2 = .ok Ei ∧
      (atomOf 1).energy_joule 3 = .ok Ef ∧
      (atomOf 1).transition_energy_joule 2 3 = .ok (Ef - Ei) ∧
      (0 < Ef - Ei ↔ (2 : ℤ) < 3)) ∧
    (atomOf 1).transition_energy_joule 0 3 = .error .valueErrorN :=
  ⟨(claim_C7 1 2 3 (by decide)).1 (by decide) (by decide),
   (claim_C7 1 0 3 (by decide)).2.1 (by decide)⟩

/-- Claim C8: for every `Z ≥ 1`, the energy levels are strictly negative,
and their magnitude `|energy_joule(n)|` is strictly decreasing as `n`
increases (energy levels approach zero from below). -/
theorem claim_C8 (Z n m : ℤ) (hZ : 1 ≤ Z) (hn : 1 ≤ n) (hnm : n < m) :
    ∃ En Em, (atomOf Z).energy_joule n = .ok En ∧
      (atomOf Z).energy_joule m = .ok Em ∧
      En < 0 ∧ Em < 0 ∧ |Em| < |En| := by
  refine ⟨Elevel Z n, Elevel Z m, energy_joule_ok Z n hn,
    energy_joule_ok Z m (by omega), Elevel_neg Z n hZ hn,
    Elevel_neg Z m hZ (by omega), ?_⟩
  rw [abs_of_neg (Elevel_neg Z n hZ hn),
    abs_of_neg (Elevel_neg Z m hZ (by omega))]
  exact neg_lt_neg (Elevel_strict Z n m hZ hn hnm)

/-- Witness for C8 at `Z = 1`, `n = 1 < m = 2`. -/
theorem claim_C8_witness :
    ∃ En Em, (atomOf 1).energy_joule 1 = .ok En ∧
      (atomOf 1).energy_joule 2 = .ok Em ∧
      En < 0 ∧ Em < 0 ∧ |Em| < |En| :=
  claim_C8 1 1 2 (by decide) (by decide) (by decide)

/-- Claim C9: for all `n_i, n_f ≥ 1`, `frequency(n_i, n_f)` equals
`|transition_energy_joule(n_i, n_f)| / h` and is non-negative; it raises the
`n`-domain `ValueError` (propagated from `energy_joule`) when either argument
is < 1; and for valid `n_i ≠ n_f`,
`frequency(n_i, n_f) * wavelength(n_i, n_f)` equals the speed of light. -/
theorem claim_C9 (Z ni nf : ℤ) (hZ : 1 ≤ Z) :
    (1 ≤ ni → 1 ≤ nf → ∃ dE v,
      (atomOf Z).transition_energy_joule ni nf = .ok dE ∧
      (atomOf Z).frequency ni nf = .ok v ∧ v = |dE| / hPlanck ∧ 0 ≤ v) ∧
    (ni < 1 ∨ nf < 1 →
      (atomOf Z).frequency ni nf = .error .valueErrorN) ∧
    (1 ≤ ni → 1 ≤ nf → ni ≠ nf → ∃ v lam,
      (atomOf Z).frequency ni nf = .ok v ∧
      (atomOf Z).wavelength ni nf = .ok lam ∧ v * lam = cLight) := by
  refine ⟨fun hi hf => ⟨Elevel Z nf - Elevel Z ni,
      |Elevel Z nf - Elevel Z ni| / hPlanck, tej_ok Z ni nf hi hf,
      frequency_ok Z ni nf hi hf, rfl,
      div_nonneg (abs_nonneg _) hPlanck_pos.le⟩,
    fun h => freq_err Z ni nf h,
    fun hi hf hne => ⟨|Elevel Z nf - Elevel Z ni| / hPlanck,
      cLight / (|Elevel Z nf - Elevel Z ni| / hPlanck),
      frequency_ok Z ni nf hi hf, wavelength_ok Z ni nf hZ hi hf hne, ?_⟩⟩
  have hv : |Elevel Z nf - Elevel Z ni| / hPlanck ≠ 0 := by
    intro h0
    exact hne ((freq_val_zero_iff Z ni nf hZ hi hf).mp h0)
  rw [mul_comm]
  exact div_mul_cancel₀ cLight hv

/-- Witness for C9 at `Z = 1`: the `2 → 1` transition satisfies
`frequency = |ΔE| / h ≥ 0` and `frequency * wavelength = c`, and
`frequency(0, 1)` raises `ValueError`. -/
theorem claim_C9_witness :
    (∃ dE v, (atomOf 1).transition_energy_joule 2 1 = .ok dE ∧
      (atomOf 1).frequency 2 1 = .ok v ∧ v = |dE| / hPlanck ∧ 0 ≤ v) ∧
    (atomOf 1).frequency 0 1 = .error .valueErrorN ∧
    (∃ v lam, (atomOf 1).frequency 2 1 = .ok v ∧
      (atomOf 1).wavelength 2 1 = .ok lam ∧ v * lam = cLight) :=
  ⟨(claim_C9 1 2 1 (by decide)).1 (by decide) (by decide),
   (claim_C9 1 0 1 (by decide)).2.1 (Or.inl (by decide)),
   (claim_C9 1 2 1 (by decide)).2.2 (by decide) (by decide) (by decide)⟩

/-- Claim C10: in `energy(n, unit)`, the `n ≥ 1` validation happens before
the unit string is inspected: for every integer `n < 1` and every unit string
(including unrecognized ones), the error raised is the `n`-domain
`ValueError` from `energy_joule`, never the unrecognized-unit error. -/
theorem claim_C10 (Z n : ℤ) (unit : String) (hZ : 1 ≤ Z) (hn : n < 1) :
    (atomOf Z).energy n unit = .error .valueErrorN := by
  unfold BohrAtom.energy
  rw [energy_joule_err Z n hn]
  simp [Except.bind, Bind.bind]

/-- Witness for C10 at `Z = 1`, `n = 0` with an unrecognized unit string:
the error is the `n`-domain `ValueError`, not the unit error. -/
theorem claim_C10_witness :
    (atomOf 1).energy 0 "nonsense" = .error .valueErrorN :=
  claim_C10 1 0 "nonsense" (by decide) (by decide)
